import Mathlib

/-!
Shallow embedding of the autopost core (src/core and src/memory) used to
settle the specification claims.

Conventions of the embedding:
* Time is a rational number of seconds on one global clock; the monitor
  divides by 3600 or 86400 exactly where the Python code calls
  total_seconds() / 3600 or / 86400.
* Lists that model SQL query results are kept in the order the query
  returns them: get_recent_content and search_entries order by timestamp
  descending, so the model keeps storage newest first and the query is a
  List.take of the limit.
* Floating point arithmetic of the source is modelled exactly over the
  rationals; every constant of the source (0.6, 0.85, 1.5, ...) is an
  exact rational.
* Python exceptions are modelled with Except; a caught exception is a
  branch on the Except value.
-/

namespace Autopost

/-- Model of memory.models.ContentMemory restricted to the fields the
monitor reads (timestamp in seconds; topic; optional quality score;
published and rejected flags; optional rejection reason). -/
structure ContentMemory where
  timestamp : ℚ
  topic : String
  quality_score : Option ℚ
  published : Bool
  rejected : Bool
  rejection_reason : Option String
deriving Repr, DecidableEq

/-- Model of MemoryStorage.get_recent_content: the storage list is kept
newest first, so the query ORDER BY timestamp DESC LIMIT n is a take. -/
def get_recent_content (storage : List ContentMemory) (limit : ℕ) :
    List ContentMemory :=
  storage.take limit

/-- Model of core.internal_monitor.InternalTrigger; the opaque metadata
dictionary and the timestamp string are not modelled. -/
structure InternalTrigger where
  name : String
  condition : String
  urgency : ℚ
deriving Repr, DecidableEq

/-- One goal of the goals configuration (priority, active flag, creation
time in seconds; none models a missing created_at). -/
structure ContentGoal where
  active : Bool
  priority : ℤ
  created_at : Option ℚ
deriving Repr, DecidableEq

/-- External goal configuration read by the monitor. -/
structure GoalsConfig where
  posting_frequency : String
  content_goals : List ContentGoal
deriving Repr, DecidableEq

/-- Expected publication interval in hours for a posting frequency
category, with the dictionary default of 24 for unknown categories. -/
def expectedIntervalHours (frequency : String) : ℚ :=
  if frequency = "frequent" then 6
  else if frequency = "moderate" then 24
  else if frequency = "rare" then 72
  else 24

/-- Python max over a list keyed by timestamp: the first element of
maximal timestamp wins, because max replaces only on strictly greater. -/
def maxByTimestamp : List ContentMemory → Option ContentMemory
  | [] => none
  | c :: cs =>
      some (cs.foldl (fun acc x => if acc.timestamp < x.timestamp then x else acc) c)

/-- Model of InternalStateMonitor.check_publication_silence: storage is
none when no memory index or storage is attached; goals is none when no
goal configuration is attached. -/
def check_publication_silence (now : ℚ) (storage : Option (List ContentMemory))
    (goals : Option GoalsConfig) : List InternalTrigger :=
  match storage with
  | none => []
  | some st =>
    let recent_content := get_recent_content st 10
    let published_content := recent_content.filter (fun c => c.published)
    match maxByTimestamp published_content with
    | none =>
        [⟨"no_publications", "never_published", 1/2⟩]
    | some last_published =>
        let hours_since := (now - last_published.timestamp) / 3600
        match goals with
        | none => []
        | some g =>
            let expected_interval := expectedIntervalHours g.posting_frequency
            if expected_interval * (3/2) < hours_since then
              [⟨"publication_silence", "too_long_since_last",
                min (9/10) (1/2 + (hours_since / expected_interval - 3/2) * (1/5))⟩]
            else []

/-- Model of InternalStateMonitor.check_repetition (the monitor rule over
topics of the last 20 records; only the trigger fields matter, the human
readable message is dropped). -/
def check_repetition_triggers (storage : Option (List ContentMemory)) :
    List InternalTrigger :=
  match storage with
  | none => []
  | some st =>
    let recent_content := get_recent_content st 20
    let topics := (recent_content.filter (fun c => c.topic != "")).map (fun c => c.topic)
    let repeated_counts := topics.eraseDups.filterMap
      (fun t => let c := topics.count t; if 3 ≤ c then some c else none)
    match repeated_counts.max? with
    | none => []
    | some max_repeats =>
        [⟨"topic_repetition", "too_many_repeats",
          min (4/5) (2/5 + ((max_repeats : ℚ) - 3) * (1/5))⟩]

/-- Model of InternalStateMonitor.check_goal_progress; a missing
created_at defaults to now, giving zero age, as in the source. -/
def check_goal_progress (now : ℚ) (goals : Option GoalsConfig) :
    List InternalTrigger :=
  match goals with
  | none => []
  | some g =>
    if g.content_goals = [] then []
    else
      g.content_goals.filterMap (fun goal =>
        if !goal.active then none
        else
          let created_at := goal.created_at.getD now
          let days_since := (now - created_at) / 86400
          if 7 < days_since ∧ 7 ≤ goal.priority then
            some ⟨"goal_stagnation", "high_priority_goal_inactive", 3/5⟩
          else none)

/-- Model of InternalStateMonitor.check_too_safe; the density rejection
count only affects the dropped message, not the trigger. -/
def check_too_safe (storage : Option (List ContentMemory)) : List InternalTrigger :=
  match storage with
  | none => []
  | some st =>
    let recent_content := get_recent_content st 10
    if recent_content.length < 5 then []
    else
      let rejected := (recent_content.filter (fun c => c.rejected)).length
      let rejection_rate := (rejected : ℚ) / (recent_content.length : ℚ)
      if 4/5 < rejection_rate then
        [⟨"too_conservative", "high_rejection_rate", 7/10⟩]
      else []

/-- Model of InternalStateMonitor.check_quality_trend: among the 10 most
recent content records, the first 5 carrying a score are taken; the first
3 of those are the recent window and the remaining 2 the older window. -/
def check_quality_trend (storage : Option (List ContentMemory)) :
    List InternalTrigger :=
  match storage with
  | none => []
  | some st =>
    let recent_content := get_recent_content st 10
    let content_with_scores := recent_content.filter (fun c => c.quality_score.isSome)
    if content_with_scores.length < 5 then []
    else
      let scores := (content_with_scores.take 5).filterMap (fun c => c.quality_score)
      let recent_avg := (scores.take 3).sum / ((scores.take 3).length : ℚ)
      let older_avg := (scores.drop 3).sum / ((scores.drop 3).length : ℚ)
      if recent_avg < older_avg - 1/10 then
        [⟨"quality_degradation", "quality_dropping", 3/5⟩]
      else []

/-- Model of InternalStateMonitor.check_state: the five rules in source
order, concatenated. -/
def check_state (now : ℚ) (storage : Option (List ContentMemory))
    (goals : Option GoalsConfig) : List InternalTrigger :=
  check_publication_silence now storage goals ++
  check_repetition_triggers storage ++
  check_goal_progress now goals ++
  check_too_safe storage ++
  check_quality_trend storage

/-- Model of InternalStateMonitor.get_most_urgent_trigger: Python max by
urgency, which keeps the first element among equals. -/
def get_most_urgent_trigger (triggers : List InternalTrigger) :
    Option InternalTrigger :=
  match triggers with
  | [] => none
  | t :: ts =>
      some (ts.foldl (fun acc x => if acc.urgency < x.urgency then x else acc) t)

/-- Model of one scheduled task of core.scheduler.Scheduler; callback_ok
records whether the callback returns normally (false models a callback
that raises, which the loop catches per task). -/
structure STask where
  name : String
  interval : ℚ
  enabled : Bool
  last_run : Option ℚ
  next_run : Option ℚ
  callback_ok : Bool
deriving Repr, DecidableEq

/-- Model of Scheduler.add_task: next_run starts at now when enabled and
at none otherwise. -/
def add_task (tasks : List STask) (name : String) (callback_ok : Bool)
    (interval : ℚ) (enabled : Bool) (now : ℚ) : List STask :=
  tasks ++ [{ name := name, interval := interval, enabled := enabled,
              last_run := none,
              next_run := if enabled then some now else none,
              callback_ok := callback_ok }]

/-- Per task body of the Scheduler run loop: initialize next_run on first
sight, run when due, and update last_run and next_run only when the
callback returns normally (an exception is caught and leaves both). -/
def process_task (now : ℚ) (t : STask) : STask :=
  if !t.enabled then t
  else
    let t1 := if t.next_run.isNone then { t with next_run := some now } else t
    match t1.next_run with
    | none => t1
    | some nr =>
        if nr ≤ now then
          if t1.callback_ok then
            { t1 with last_run := some now, next_run := some (now + t1.interval) }
          else t1
        else t1

/-- The due test of the run loop for an enabled task (next_run none means
it is initialized to now this tick and is therefore due). -/
def is_due (now : ℚ) (t : STask) : Bool :=
  t.enabled &&
    match t.next_run with
    | none => true
    | some nr => decide (nr ≤ now)

/-- Name of the designated main task that preemption targets. -/
def mainTaskName : String := "content_creation_cycle"

/-- Effect of the preemption branch on the task list: Python next finds
the first task with the main name and sets its next_run to now when it is
enabled. -/
def force_main_task (now : ℚ) : List STask → List STask
  | [] => []
  | t :: ts =>
      if t.name = mainTaskName then
        (if t.enabled then { t with next_run := some now } else t) :: ts
      else t :: force_main_task now ts

/-- The monitor consultation step of one tick: when the trigger list is
nonempty and the most urgent trigger reaches urgency 0.6, the main task
is forced due now. -/
def apply_preemption (now : ℚ) (triggers : List InternalTrigger)
    (tasks : List STask) : List STask :=
  if triggers = [] then tasks
  else
    match get_most_urgent_trigger triggers with
    | none => tasks
    | some u => if 3/5 ≤ u.urgency then force_main_task now tasks else tasks

/-- One tick of Scheduler.run with an attached monitor: consult the
monitor, then process every task with the same now read once per tick. -/
def scheduler_tick (now : ℚ) (storage : Option (List ContentMemory))
    (goals : Option GoalsConfig) (tasks : List STask) : List STask :=
  let tasks1 := apply_preemption now (check_state now storage goals) tasks
  tasks1.map (process_task now)

/-- Night mode configuration of core.advanced_scheduler.AdvancedScheduler;
start and finish are seconds of day (the source field night_mode_end is
renamed because end is a keyword). -/
structure NightModeConfig where
  enabled : Bool
  start : ℕ
  finish : ℕ
deriving Repr, DecidableEq

/-- Model of AdvancedScheduler.is_night_mode on a time of day in seconds,
with the wrap past midnight case taken when start is strictly after the
finish time. -/
def is_night_mode (cfg : NightModeConfig) (now_tod : ℕ) : Bool :=
  if !cfg.enabled then false
  else if cfg.finish < cfg.start then
    decide (cfg.start ≤ now_tod) || decide (now_tod ≤ cfg.finish)
  else
    decide (cfg.start ≤ now_tod) && decide (now_tod ≤ cfg.finish)

/-- Model of one task of the advanced scheduler; absolute times are
seconds since epoch and schedule times are seconds of day. -/
structure ATask where
  name : String
  interval : Option ℕ
  schedule_times : Option (List ℕ)
  enabled : Bool
  skip_night_mode : Bool
  last_run : Option ℕ
  next_run : Option ℕ
deriving Repr, DecidableEq

/-- Model of AdvancedScheduler.get_next_schedule_time: sort today's
occurrences, take the first strictly after now, else the earliest time
tomorrow. -/
def get_next_schedule_time (now : ℕ) : List ℕ → Option ℕ
  | [] => none
  | t0 :: ts =>
      let day := now / 86400
      let today_times := (t0 :: ts).map (fun t => day * 86400 + t)
      match (today_times.mergeSort (fun a b => decide (a ≤ b))).find?
              (fun s => decide (now < s)) with
      | some s => some s
      | none => some ((day + 1) * 86400 + ts.foldl min t0)

/-- Model of AdvancedScheduler.should_run_task, returning the decision
and the possibly updated task (next_run is initialized in place for an
interval task seen for the first time). A zero interval is falsy in
Python and therefore never runs, exactly as in the source. -/
def should_run_task (cfg : NightModeConfig) (now : ℕ) (t : ATask) :
    Bool × ATask :=
  if !t.enabled then (false, t)
  else if is_night_mode cfg (now % 86400) && !t.skip_night_mode then (false, t)
  else
    match t.schedule_times with
    | some (t0 :: ts) =>
        match get_next_schedule_time now (t0 :: ts) with
        | some next_time => (decide (next_time ≤ now), t)
        | none => (false, t)
    | _ =>
        match t.interval with
        | some i =>
            if i = 0 then (false, t)
            else
              let t1 := if t.next_run.isNone then { t with next_run := some now } else t
              match t1.next_run with
              | some nr => (decide (nr ≤ now), t1)
              | none => (false, t1)
        | none => (false, t)

section Orchestrator

variable {V : Type}

/-- The shared mutable context of core.orchestrator.Orchestrator.execute,
as a partial map from keys to values. -/
def Blackboard (V : Type) : Type := String → Option V

/-- One registered agent: its act entrypoint receives the blackboard and
either raises, returns a non dict value (modelled none, ignored), or
returns a partial update to merge. -/
def AgentImpl (V : Type) : Type :=
  Blackboard V → Except String (Option (List (String × V)))

/-- Python dict.update: keys of the update win over existing keys. -/
def bb_update (ctx : Blackboard V) (upd : List (String × V)) : Blackboard V :=
  fun k =>
    match upd.lookup k with
    | some v => some v
    | none => ctx k

/-- Model of Orchestrator.execute: walk the fixed pipeline order, skip a
name with no registered agent, merge a dict result, and stop the run at
the first agent that raises, returning the blackboard built so far. -/
def execute (agents : String → Option (AgentImpl V)) :
    List String → Blackboard V → Blackboard V
  | [], ctx => ctx
  | name :: rest, ctx =>
      match agents name with
      | none => execute agents rest ctx
      | some agent =>
          match agent ctx with
          | Except.ok none => execute agents rest ctx
          | Except.ok (some upd) => execute agents rest (bb_update ctx upd)
          | Except.error _ => ctx

/-- The fixed pipeline order of the orchestrator. -/
def default_pipeline : List String :=
  ["thinker", "writer", "editor", "critic", "publisher", "archivist"]

/-- Successful execution of a list of units threading the blackboard:
this is the success path of execute, including the skip of unregistered
names, used to say that the units before a failing unit all completed. -/
inductive RunsTo (agents : String → Option (AgentImpl V)) :
    List String → Blackboard V → Blackboard V → Prop
  | nil (ctx : Blackboard V) : RunsTo agents [] ctx ctx
  | skip {n rest ctx ctx2} (h : agents n = none)
      (hrest : RunsTo agents rest ctx ctx2) : RunsTo agents (n :: rest) ctx ctx2
  | ok_none {n rest ctx ctx2 agent} (h : agents n = some agent)
      (hres : agent ctx = Except.ok none)
      (hrest : RunsTo agents rest ctx ctx2) : RunsTo agents (n :: rest) ctx ctx2
  | ok_upd {n rest ctx ctx2 agent upd} (h : agents n = some agent)
      (hres : agent ctx = Except.ok (some upd))
      (hrest : RunsTo agents rest (bb_update ctx upd) ctx2) :
      RunsTo agents (n :: rest) ctx ctx2

end Orchestrator

/-- Action data of the intent loop, restricted to the fields run_cycle
reads (result_data models the optional attribute looked up with getattr). -/
structure LoopAction where
  action_id : String
  executed : Bool
  result_data : Option String
deriving Repr, DecidableEq

/-- Result record built by run_cycle before reflection. -/
structure LoopResult where
  action : LoopAction
  success : Bool
  data : Option String
  error : Option String
deriving Repr, DecidableEq

/-- Reflection record returned by run_cycle. -/
structure LoopReflection where
  action : LoopAction
  result : LoopResult
  learnings : String
  should_retry : Bool
deriving Repr, DecidableEq

/-- Model of core.intent_loop.IntentLoop: the five abstract phases, each
able to raise, plus the current cycle action slot that the except branch
of run_cycle consults; the source initializes the underlying dictionary
to None in the constructor and never writes it afterwards. -/
structure IntentLoopImpl (Ctx Obs Th It : Type) where
  current_cycle_action : Option LoopAction
  observe : Ctx → Except String Obs
  think : Obs → Except String Th
  form_intent : Th → Except String It
  act : It → Except String LoopAction
  reflect : LoopAction → LoopResult → Except String LoopReflection

/-- The constructor of IntentLoop: the current cycle slot starts empty
and nothing in the repository ever fills it. -/
def IntentLoopImpl.init {Ctx Obs Th It : Type}
    (observe : Ctx → Except String Obs) (think : Obs → Except String Th)
    (form_intent : Th → Except String It) (act : It → Except String LoopAction)
    (reflect : LoopAction → LoopResult → Except String LoopReflection) :
    IntentLoopImpl Ctx Obs Th It :=
  { current_cycle_action := none, observe := observe, think := think,
    form_intent := form_intent, act := act, reflect := reflect }

/-- Model of IntentLoop.run_cycle: the five phases run in sequence under
one try; on an exception the except branch returns a synthetic failed
Reflection only when the current cycle slot holds an action, and
otherwise re-raises. -/
def run_cycle {Ctx Obs Th It : Type} (L : IntentLoopImpl Ctx Obs Th It)
    (context : Ctx) : Except String LoopReflection :=
  let phases : Except String LoopReflection := do
    let observation ← L.observe context
    let thought ← L.think observation
    let intent ← L.form_intent thought
    let action ← L.act intent
    let result : LoopResult :=
      ⟨action, action.executed, action.result_data, none⟩
    L.reflect action result
  match phases with
  | Except.ok r => Except.ok r
  | Except.error e =>
      match L.current_cycle_action with
      | some action =>
          Except.ok ⟨action, ⟨action, false, none, some e⟩,
                     "Error occurred: " ++ e, false⟩
      | none => Except.error e

/-- Model of core.personality.Personality (the last_update string is not
modelled; drift never reads it). -/
structure Personality where
  tension : ℚ
  boldness : ℚ
  depth : ℚ
  drift_rate : ℚ
deriving Repr, DecidableEq

/-- The experience dictionary read by drift, with the three keys it looks
up (a missing key takes the source default at the call site). -/
structure Experience where
  rejection_rate : ℚ
  quality_avg : ℚ
  publication_success : Bool
deriving Repr, DecidableEq

/-- Model of Personality.drift: tension and boldness are clamped to the
unit interval from both sides, depth only from above. -/
def Personality.drift (p : Personality) (e : Experience) : Personality :=
  let tension_change := (e.rejection_rate - 1/2) * p.drift_rate
  let tension := max 0 (min 1 (p.tension + tension_change))
  let boldness_change :=
    if e.publication_success then (e.quality_avg - 1/2) * p.drift_rate
    else -(p.drift_rate * (1/2))
  let boldness := max 0 (min 1 (p.boldness + boldness_change))
  let depth := min 1 (p.depth + p.drift_rate * (1/10))
  { tension := tension, boldness := boldness, depth := depth,
    drift_rate := p.drift_rate }

section MemoryIndex

variable {E : Type}

/-- Model of memory.models.MemoryEntry restricted to the fields the
search path reads; the embedding type is abstract. -/
structure MemoryEntry (E : Type) where
  id : String
  entry_type : String
  embedding : Option E
deriving Repr, DecidableEq

/-- Model of MemoryStorage.search_entries: filter by type when given,
order by timestamp descending (the storage list is kept newest first) and
stop at the limit. -/
def search_entries (storage : List (MemoryEntry E)) (entry_type : Option String)
    (limit : ℕ) : List (MemoryEntry E) :=
  match entry_type with
  | some ty => (storage.filter (fun e => e.entry_type == ty)).take limit
  | none => storage.take limit

/-- Model of memory.embeddings.find_similar, abstracted over the scoring
function sim standing for cosine_similarity (the source computes it over
float vectors; only its values feed the threshold and sort logic): keep
the candidates scoring at least the threshold, stable sort descending by
score, and take the first top_k. -/
def find_similar (sim : E → E → ℚ) (target : E) (candidates : List (String × E))
    (threshold : ℚ) (top_k : ℕ) : List (String × ℚ) :=
  let similarities := candidates.filterMap (fun c =>
    let s := sim target c.2
    if threshold ≤ s then some (c.1, s) else none)
  (similarities.mergeSort (fun a b => decide (b.2 ≤ a.2))).take top_k

/-- Model of MemoryIndex.search_similar: embed the query (none models an
unavailable embedding backend, giving the empty result), collect up to
1000 candidates, keep those carrying an embedding, and map the scored ids
back to entries; ids are unique in storage (primary key), so the first
match models the dict lookup of the source. -/
def search_similar (sim : E → E → ℚ) (embedder : String → Option E)
    (storage : List (MemoryEntry E)) (query : String)
    (entry_type : Option String) (threshold : ℚ) (top_k : ℕ) :
    List (MemoryEntry E × ℚ) :=
  match embedder query with
  | none => []
  | some query_embedding =>
      let candidates := search_entries storage entry_type 1000
      let candidates_with_embeddings :=
        candidates.filterMap (fun e => e.embedding.map (fun emb => (e.id, emb)))
      if candidates_with_embeddings.isEmpty then []
      else
        (find_similar sim query_embedding candidates_with_embeddings
            threshold top_k).filterMap
          (fun r => (candidates.find? (fun e => e.id == r.1)).map (fun e => (e, r.2)))

/-- Model of MemoryIndex.check_repetition: best match with top_k one,
then the threshold test on its score. -/
def check_repetition (sim : E → E → ℚ) (embedder : String → Option E)
    (storage : List (MemoryEntry E)) (text : String) (threshold : ℚ) :
    Bool × Option (MemoryEntry E) :=
  match search_similar sim embedder storage text none threshold 1 with
  | (e, s) :: _ => if threshold ≤ s then (true, some e) else (false, none)
  | [] => (false, none)

end MemoryIndex

/-! Concrete inputs used by the claim theorems, their witnesses and the
counterexamples. -/

/-- A content record carrying a quality score, for the quality trend
scenarios. -/
def qtRec (ts q : ℚ) : ContentMemory :=
  ⟨ts, "t", some q, false, false, none⟩

/-- An unpublished content record with no score. -/
def unpubRec (ts : ℚ) : ContentMemory :=
  ⟨ts, "t", none, false, false, none⟩

/-- A published content record with no score. -/
def pubRec (ts : ℚ) : ContentMemory :=
  ⟨ts, "t", none, true, false, none⟩

/-- A rejected, unpublished content record with an empty topic. -/
def rejectedRec : ContentMemory :=
  ⟨0, "", none, false, true, none⟩

/-- Bool reading of the claim C2 condition taken from the words of the
specification: among history records carrying a quality score, the
average of the most recent 3 scores is below the average of the next 5
scores minus 0.1. Stated from the spec, for comparison against
check_quality_trend which the source code defines. -/
def quality_trend_spec_trigger (storage : List ContentMemory) : Bool :=
  let scores := storage.filterMap (fun c => c.quality_score)
  let recent := scores.take 3
  let older := (scores.drop 3).take 5
  decide (recent.sum / (recent.length : ℚ) < older.sum / (older.length : ℚ) - 1/10)

/-- Eight scored records, newest first: scores 0.5, 0.5, 0.5 then 0.8,
0.8 then 0, 0, 0. The code compares 0.5 against the mean 0.8 of the next
two scores and fires; the mean of the next five scores is 0.32, so the
spec condition does not hold. -/
def qualityTrendCex : List ContentMemory :=
  [qtRec 8 (1/2), qtRec 7 (1/2), qtRec 6 (1/2), qtRec 5 (4/5), qtRec 4 (4/5),
   qtRec 3 0, qtRec 2 0, qtRec 1 0]

/-- Five scored records whose recent average is clearly below the older
one, used to exercise the firing branch of the quality trend rule. -/
def qualityTrendFires : List ContentMemory :=
  [qtRec 5 0, qtRec 4 0, qtRec 3 0, qtRec 2 1, qtRec 1 1]

/-- Eleven content records, newest first: the ten most recent are
unpublished and the oldest is published, so the query window of ten hides
the only publication. -/
def pubSilenceCex : List ContentMemory :=
  [unpubRec 39600, unpubRec 36000, unpubRec 32400, unpubRec 28800,
   unpubRec 25200, unpubRec 21600, unpubRec 18000, unpubRec 14400,
   unpubRec 10800, unpubRec 7200] ++ [pubRec 3600]

/-- Storage with a single publication 37 hours before the witness clock. -/
def pubSilenceWitnessStorage : List ContentMemory :=
  [pubRec 0]

/-- Five rejected records: rejection rate 1.0 over at least five records,
firing the over conservatism rule at urgency 0.7. -/
def monitorRejectedStorage : List ContentMemory :=
  List.replicate 5 rejectedRec

/-- The main task of the scheduler witness, scheduled well in the future
so that only preemption can make it due at time zero. -/
def mainTaskEx : STask :=
  ⟨"content_creation_cycle", 3600, true, none, some 100, true⟩

/-- An enabled interval task due at time zero. -/
def sTaskEx : STask :=
  ⟨"t", 5, true, none, some 0, true⟩

/-- An enabled interval task of the advanced scheduler that does not
bypass night mode. -/
def aTaskEx : ATask :=
  ⟨"t", some 3600, none, true, false, none, none⟩

/-- The night mode configuration of claim C7: start 22:00, end 08:00, in
seconds of day. -/
def nightCfgEx : NightModeConfig :=
  ⟨true, 79200, 28800⟩

/-- Agent registry of the pipeline witness: thinker writes one key,
writer raises, nothing else is registered. -/
def c4Agents : String → Option (AgentImpl ℤ) := fun n =>
  if n = "thinker" then some (fun _ => Except.ok (some [("a", (1 : ℤ))]))
  else if n = "writer" then some (fun _ => Except.error "boom")
  else none

/-- The empty blackboard. -/
def emptyBB : Blackboard ℤ := fun _ => none

/-- Personality at the source defaults. -/
def personalityEx : Personality :=
  ⟨1/2, 1/2, 1/2, 1/100⟩

/-- The experience of claim C8: quality average 0.9 and publication
success. -/
def goodExperience : Experience :=
  ⟨1/2, 9/10, true⟩

/-- The unit interval invariant of the specification on the three
drifting personality fields. -/
def Personality.inRange (p : Personality) : Prop :=
  0 ≤ p.tension ∧ p.tension ≤ 1 ∧ 0 ≤ p.boldness ∧ p.boldness ≤ 1 ∧
    0 ≤ p.depth ∧ p.depth ≤ 1

instance : DecidablePred Personality.inRange := fun p => by
  unfold Personality.inRange
  infer_instance

/-- Similarity scoring used in the memory scenarios: two embeddings score
0.9 when both are the distinguished value 1 and 0 otherwise. -/
def repSim : ℕ → ℕ → ℚ := fun a b => if a = 1 ∧ b = 1 then 9/10 else 0

/-- Embedding backend of the memory scenarios: every text embeds to the
distinguished value 1. -/
def repEmbedder : String → Option ℕ := fun _ => some 1

/-- Storage of 1001 entries, newest first: 1000 recent entries whose
embeddings do not match the query, and one old matching entry that the
candidate limit of 1000 excludes. -/
def repCexStorage : List (MemoryEntry ℕ) :=
  List.replicate 1000 ⟨"recent", "content", some 0⟩ ++ [⟨"old", "content", some 1⟩]

/-- Storage with a single entry whose embedding matches the query at
similarity 0.9. -/
def repWitnessStorage : List (MemoryEntry ℕ) :=
  [⟨"r1", "content", some 1⟩]

/-! Helper lemmas. -/

lemma drift_drift_rate (p : Personality) (e : Experience) :
    (p.drift e).drift_rate = p.drift_rate := rfl

lemma drift_inRange (p : Personality) (e : Experience)
    (hd : 0 ≤ p.depth) (hr : 0 ≤ p.drift_rate) : (p.drift e).inRange := by
  simp only [Personality.drift, Personality.inRange]
  refine ⟨le_max_left _ _, max_le (by norm_num) (min_le_left _ _),
          le_max_left _ _, max_le (by norm_num) (min_le_left _ _),
          le_min (by norm_num) ?_, min_le_left _ _⟩
  exact add_nonneg hd (mul_nonneg hr (by norm_num))

lemma drift_good_boldness (p : Personality) (rr : ℚ) :
    (p.drift ⟨rr, 9/10, true⟩).boldness =
      max 0 (min 1 (p.boldness + (2/5) * p.drift_rate)) := by
  simp only [Personality.drift]
  norm_num [mul_comm]

lemma foldl_drift_inRange (exps : List Experience) :
    ∀ p : Personality, p.inRange → 0 ≤ p.drift_rate →
      (exps.foldl Personality.drift p).inRange := by
  induction exps with
  | nil => exact fun p h _ => h
  | cons e rest ih =>
      intro p hp hr
      exact ih (p.drift e) (drift_inRange p e hp.2.2.2.2.1 hr)
        (by rw [drift_drift_rate]; exact hr)

lemma foldl_drift_good_boldness (n : ℕ) :
    ∀ p : Personality, p.inRange → 0 < p.drift_rate →
      ((List.replicate n goodExperience).foldl Personality.drift p).boldness =
        min 1 (p.boldness + n * ((2/5) * p.drift_rate)) := by
  induction n with
  | zero =>
      intro p hp _
      simp [min_eq_right hp.2.2.2.1]
  | succ n ih =>
      intro p hp hr
      rw [List.replicate_succ, List.foldl_cons]
      have hb0 : 0 ≤ p.boldness := hp.2.2.1
      have hδ : 0 < (2/5) * p.drift_rate := by positivity
      have hbold : (p.drift goodExperience).boldness =
          min 1 (p.boldness + (2/5) * p.drift_rate) := by
        rw [show goodExperience = ⟨1/2, 9/10, true⟩ from rfl,
            drift_good_boldness p (1/2)]
        exact max_eq_right (le_min (by norm_num) (by linarith))
      have hrange : (p.drift goodExperience).inRange :=
        drift_inRange p goodExperience hp.2.2.2.2.1 (le_of_lt hr)
      have hrate : (p.drift goodExperience).drift_rate = p.drift_rate :=
        drift_drift_rate p goodExperience
      rw [ih (p.drift goodExperience) hrange (by rw [hrate]; exact hr),
          hbold, hrate]
      rcases le_or_lt 1 (p.boldness + (2/5) * p.drift_rate) with h1 | h1
      · rw [min_eq_left h1]
        have hn : (0:ℚ) ≤ (n : ℚ) * ((2/5) * p.drift_rate) := by positivity
        rw [min_eq_left (by linarith), min_eq_left (by push_cast; linarith)]
      · rw [min_eq_right (le_of_lt h1)]
        congr 1
        push_cast
        ring

/-! Claim theorems. -/

/-- C1: the claim states that run_cycle always completes with a
Reflection and never propagates an exception. In the source the except
branch of run_cycle builds the synthetic failed Reflection only when the
current cycle dictionary holds an action; that dictionary is initialized
to None in the constructor and never written anywhere in the repository,
so the branch is dead and run_cycle re-raises. A unit whose observe phase
raises makes run_cycle return the error instead of a Reflection. -/
theorem run_cycle_propagates_phase_error :
    run_cycle (IntentLoopImpl.init
        (fun _ : Unit => (Except.error "boom" : Except String Unit))
        (fun o : Unit => Except.ok o)
        (fun o : Unit => Except.ok o)
        (fun _ : Unit => Except.ok (⟨"a", true, none⟩ : LoopAction))
        (fun a r => Except.ok (⟨a, r, "", false⟩ : LoopReflection))) () =
      Except.error "boom" := rfl

/-- C7: with night mode enabled from 22:00 to 08:00 (a window wrapping
past midnight), should_run_task refuses any enabled non bypassing task at
23:30 and at 03:00, and is_night_mode is off at 09:00 and at 20:00. -/
theorem night_mode_wrap_suppression (t : ATask)
    (hen : t.enabled = true) (hnb : t.skip_night_mode = false) :
    (should_run_task nightCfgEx 84600 t).1 = false ∧
    (should_run_task nightCfgEx 10800 t).1 = false ∧
    is_night_mode nightCfgEx 32400 = false ∧
    is_night_mode nightCfgEx 72000 = false := by
  refine ⟨?_, ?_, by decide, by decide⟩ <;>
    simp [should_run_task, is_night_mode, nightCfgEx, hen, hnb]

/-- Witness for C7 at a concrete interval task. -/
theorem night_mode_wrap_suppression_witness :
    (should_run_task nightCfgEx 84600 aTaskEx).1 = false ∧
    (should_run_task nightCfgEx 10800 aTaskEx).1 = false ∧
    is_night_mode nightCfgEx 32400 = false ∧
    is_night_mode nightCfgEx 72000 = false :=
  night_mode_wrap_suppression aTaskEx rfl rfl

/-- C8: from any in range state with the default positive drift rate,
drifting with quality average 0.9 and publication success strictly
increases boldness while it is below 1, never pushes it above 1, reaches
exactly 1 after finitely many repetitions, and any sequence of drift
calls keeps tension, boldness and depth inside the unit interval. -/
theorem personality_drift_bounds_and_boldness
    (p : Personality) (exps : List Experience) (rr : ℚ)
    (hin : p.inRange) (hrate : 0 < p.drift_rate) :
    (exps.foldl Personality.drift p).inRange ∧
    (p.boldness < 1 → p.boldness < (p.drift ⟨rr, 9/10, true⟩).boldness) ∧
    (p.drift ⟨rr, 9/10, true⟩).boldness ≤ 1 ∧
    (∃ n : ℕ,
      ((List.replicate n goodExperience).foldl Personality.drift p).boldness = 1) := by
  have hb0 : 0 ≤ p.boldness := hin.2.2.1
  have hb1 : p.boldness ≤ 1 := hin.2.2.2.1
  refine ⟨foldl_drift_inRange exps p hin (le_of_lt hrate), ?_, ?_, ?_⟩
  · intro hlt
    rw [drift_good_boldness]
    have hδ : 0 < (2/5) * p.drift_rate := by positivity
    have : p.boldness < min 1 (p.boldness + (2/5) * p.drift_rate) :=
      lt_min hlt (by linarith)
    exact lt_of_lt_of_le this (le_max_right _ _)
  · rw [drift_good_boldness]
    exact max_le (by norm_num) (min_le_left _ _)
  · have hδ : 0 < (2/5) * p.drift_rate := by positivity
    obtain ⟨n, hn⟩ := exists_nat_ge ((1 - p.boldness) / ((2/5) * p.drift_rate))
    refine ⟨n, ?_⟩
    rw [foldl_drift_good_boldness n p hin hrate]
    have : 1 - p.boldness ≤ (n : ℚ) * ((2/5) * p.drift_rate) := by
      rw [div_le_iff₀ hδ] at hn
      linarith
    exact min_eq_left (by linarith)

/-- Witness for C8 at the default personality and a one element
experience list. -/
theorem personality_drift_bounds_and_boldness_witness :
    (([goodExperience] : List Experience).foldl Personality.drift
        personalityEx).inRange ∧
    (personalityEx.boldness < 1 →
      personalityEx.boldness <
        (personalityEx.drift ⟨1/2, 9/10, true⟩).boldness) ∧
    (personalityEx.drift ⟨1/2, 9/10, true⟩).boldness ≤ 1 ∧
    (∃ n : ℕ,
      ((List.replicate n goodExperience).foldl Personality.drift
          personalityEx).boldness = 1) :=
  personality_drift_bounds_and_boldness personalityEx [goodExperience] (1/2)
    (by norm_num [Personality.inRange, personalityEx])
    (by norm_num [personalityEx])

lemma process_task_mono (now : ℚ) (t : STask) (nr : ℚ)
    (hnr : t.next_run = some nr) (hI : 0 ≤ t.interval) :
    ∃ nr2, (process_task now t).next_run = some nr2 ∧ nr ≤ nr2 ∧
      (process_task now t).interval = t.interval := by
  cases he : t.enabled
  · exact ⟨nr, by simp [process_task, he, hnr], le_refl nr, by simp [process_task, he]⟩
  · by_cases hd : nr ≤ now
    · cases hcb : t.callback_ok
      · exact ⟨nr, by simp [process_task, he, hnr, hd, hcb], le_refl nr,
               by simp [process_task, he, hnr, hd, hcb]⟩
      · exact ⟨now + t.interval, by simp [process_task, he, hnr, hd, hcb],
               by linarith, by simp [process_task, he, hnr, hd, hcb]⟩
    · exact ⟨nr, by simp [process_task, he, hnr, hd], le_refl nr,
             by simp [process_task, he, hnr, hd]⟩

lemma foldl_process_mono (nows : List ℚ) :
    ∀ (t : STask) (nr : ℚ), t.next_run = some nr → 0 ≤ t.interval →
      ∃ nr2, ((nows.foldl (fun task n => process_task n task) t)).next_run =
          some nr2 ∧ nr ≤ nr2 := by
  induction nows with
  | nil => exact fun t nr h _ => ⟨nr, h, le_refl nr⟩
  | cons n rest ih =>
      intro t nr h hI
      obtain ⟨nr1, h1, hle1, hint⟩ := process_task_mono n t nr h hI
      obtain ⟨nr2, h2, hle2⟩ := ih (process_task n t) nr1 h1 (hint ▸ hI)
      exact ⟨nr2, h2, le_trans hle1 hle2⟩

/-- C3: an enabled interval task firing at the instant it is due (the
tick clock reading now equals its next_run, the fixed clock scenario of
the spec) gets next_run advanced to exactly next_run plus its interval,
and across any sequence of ticks at arbitrary clock readings next_run
never decreases. -/
theorem interval_task_next_run (t : STask) (nr : ℚ)
    (hen : t.enabled = true) (hnr : t.next_run = some nr)
    (hok : t.callback_ok = true) (hI : 0 ≤ t.interval) :
    (process_task nr t).next_run = some (nr + t.interval) ∧
    ∀ nows : List ℚ, ∃ nr2 : ℚ,
      ((nows.foldl (fun task n => process_task n task) t)).next_run = some nr2 ∧
        nr ≤ nr2 := by
  constructor
  · simp [process_task, hen, hnr, hok]
  · exact fun nows => foldl_process_mono nows t nr hnr hI

/-- Witness for C3 at a task with interval 5 due at time 0. -/
theorem interval_task_next_run_witness :
    ((process_task 0 sTaskEx).next_run = some (0 + sTaskEx.interval) ∧
     ∀ nows : List ℚ, ∃ nr2 : ℚ,
       ((nows.foldl (fun task n => process_task n task) sTaskEx)).next_run =
           some nr2 ∧ 0 ≤ nr2) :=
  interval_task_next_run sTaskEx 0 rfl rfl rfl (by norm_num [sTaskEx])

/-- C4: if the units before unit k all completed (reaching blackboard
ctx2) and unit k raises, the driver returns ctx2 unchanged no matter what
units follow k, every key of ctx2 is still present with its value, and a
unit name with no registered implementation is skipped without stopping
the run. -/
theorem pipeline_failure_containment {V : Type}
    (agents : String → Option (AgentImpl V)) (pre post : List String)
    (kname : String) (ctx ctx2 : Blackboard V) (agent : AgentImpl V)
    (e : String)
    (hpre : RunsTo agents pre ctx ctx2)
    (hk : agents kname = some agent) (herr : agent ctx2 = Except.error e) :
    execute agents (pre ++ kname :: post) ctx = ctx2 ∧
    (∀ key v, ctx2 key = some v →
      execute agents (pre ++ kname :: post) ctx key = some v) ∧
    (∀ (m : String) (rest : List String) (ctx3 : Blackboard V),
      agents m = none → execute agents (m :: rest) ctx3 = execute agents rest ctx3) := by
  have hmain : execute agents (pre ++ kname :: post) ctx = ctx2 := by
    induction hpre with
    | nil ctx => simp [execute, hk, herr]
    | skip h _ ih => simpa [execute, h] using ih herr
    | ok_none h hres _ ih => simpa [execute, h, hres] using ih herr
    | ok_upd h hres _ ih => simpa [execute, h, hres] using ih herr
  exact ⟨hmain, fun key v hv => by rw [hmain]; exact hv,
         fun m rest ctx3 hm => by simp [execute, hm]⟩

/-- Witness for C4: thinker writes one key, writer raises, editor is
never reached, and the returned blackboard still carries the key. -/
theorem pipeline_failure_containment_witness :
    execute c4Agents (["thinker"] ++ "writer" :: ["editor"]) emptyBB =
      bb_update emptyBB [("a", (1 : ℤ))] ∧
    (∀ key v, bb_update emptyBB [("a", (1 : ℤ))] key = some v →
      execute c4Agents (["thinker"] ++ "writer" :: ["editor"]) emptyBB key = some v) ∧
    (∀ (m : String) (rest : List String) (ctx3 : Blackboard ℤ),
      c4Agents m = none →
        execute c4Agents (m :: rest) ctx3 = execute c4Agents rest ctx3) :=
  pipeline_failure_containment c4Agents ["thinker"] ["editor"] "writer" emptyBB
    (bb_update emptyBB [("a", (1 : ℤ))]) (fun _ => Except.error "boom") "boom"
    (RunsTo.ok_upd rfl rfl (RunsTo.nil _)) rfl rfl

lemma force_main_find (now : ℚ) (tasks : List STask) (t0 : STask)
    (hfind : tasks.find? (fun t => t.name == mainTaskName) = some t0)
    (hen : t0.enabled = true) :
    (force_main_task now tasks).find? (fun t => t.name == mainTaskName) =
      some { t0 with next_run := some now } := by
  induction tasks with
  | nil => simp at hfind
  | cons t ts ih =>
      by_cases hname : t.name = mainTaskName
      · have ht : t = t0 := by
          simp [hname] at hfind
          exact hfind
        subst ht
        simp [force_main_task, hname, hen]
      · have hbeq : (t.name == mainTaskName) = false := by
          simpa using hname
        simp only [List.find?_cons_of_neg, hbeq, Bool.false_eq_true,
          not_false_eq_true] at hfind
        simp only [force_main_task, hname, if_false, reduceIte]
        rw [List.find?_cons_of_neg _ (by simp [hbeq])]
        exact ih hfind

/-- C6: on a tick where the monitor's check_state yields a most urgent
trigger of urgency at least 0.6, the first enabled task named
content_creation_cycle has its next_run set to the tick's now, and the
due test of the same tick then accepts it regardless of its previous
next_run. -/
theorem monitor_preemption_forces_due
    (now : ℚ) (storage : Option (List ContentMemory)) (goals : Option GoalsConfig)
    (tasks : List STask) (u : InternalTrigger) (t0 : STask)
    (hmu : get_most_urgent_trigger (check_state now storage goals) = some u)
    (hu : 3/5 ≤ u.urgency)
    (hfind : tasks.find? (fun t => t.name == mainTaskName) = some t0)
    (hen : t0.enabled = true) :
    ∃ t1, (apply_preemption now (check_state now storage goals) tasks).find?
            (fun t => t.name == mainTaskName) = some t1 ∧
      t1.next_run = some now ∧ is_due now t1 = true := by
  have hne : ¬(check_state now storage goals = []) := by
    intro h
    rw [h] at hmu
    simp [get_most_urgent_trigger] at hmu
  refine ⟨{ t0 with next_run := some now }, ?_, rfl, ?_⟩
  · simp only [apply_preemption, if_neg hne, hmu]
    rw [if_pos hu]
    exact force_main_find now tasks t0 hfind hen
  · simp [is_due, hen]

lemma check_state_rejected_eval :
    check_state 0 (some monitorRejectedStorage) none =
      [⟨"no_publications", "never_published", 1/2⟩,
       ⟨"too_conservative", "high_rejection_rate", 7/10⟩] := by
  norm_num [check_state, check_publication_silence, check_repetition_triggers,
    check_goal_progress, check_too_safe, check_quality_trend,
    monitorRejectedStorage, rejectedRec, get_recent_content, maxByTimestamp,
    List.replicate_succ, List.eraseDups, List.eraseDups.loop]

/-- Witness for C6: five rejected records make the over conservatism rule
fire at 0.7, and the main task scheduled at 100 becomes due at time 0. -/
theorem monitor_preemption_forces_due_witness :
    ∃ t1, (apply_preemption 0 (check_state 0 (some monitorRejectedStorage) none)
            [mainTaskEx]).find? (fun t => t.name == mainTaskName) = some t1 ∧
      t1.next_run = some 0 ∧ is_due 0 t1 = true :=
  monitor_preemption_forces_due 0 (some monitorRejectedStorage) none [mainTaskEx]
    ⟨"too_conservative", "high_rejection_rate", 7/10⟩ mainTaskEx
    (by rw [check_state_rejected_eval]; norm_num [get_most_urgent_trigger])
    (by norm_num) (by simp [mainTaskEx, mainTaskName]) rfl

lemma check_publication_silence_names (now : ℚ)
    (storage : Option (List ContentMemory)) (goals : Option GoalsConfig)
    (trig : InternalTrigger)
    (ht : trig ∈ check_publication_silence now storage goals) :
    trig.name = "no_publications" ∨ trig.name = "publication_silence" := by
  rcases storage with _ | st
  · simp [check_publication_silence] at ht
  · simp only [check_publication_silence] at ht
    split at ht
    · simp at ht
      subst ht
      left
      rfl
    · rcases goals with _ | g
      · simp at ht
      · simp only at ht
        split at ht
        · simp at ht
          subst ht
          right
          rfl
        · simp at ht

lemma check_repetition_triggers_names (storage : Option (List ContentMemory))
    (trig : InternalTrigger) (ht : trig ∈ check_repetition_triggers storage) :
    trig.name = "topic_repetition" := by
  rcases storage with _ | st
  · simp [check_repetition_triggers] at ht
  · simp only [check_repetition_triggers] at ht
    split at ht
    · simp at ht
    · simp at ht
      subst ht
      rfl

lemma check_goal_progress_names (now : ℚ) (goals : Option GoalsConfig)
    (trig : InternalTrigger) (ht : trig ∈ check_goal_progress now goals) :
    trig.name = "goal_stagnation" := by
  rcases goals with _ | g
  · simp [check_goal_progress] at ht
  · simp only [check_goal_progress] at ht
    split at ht
    · simp at ht
    · simp only [List.mem_filterMap] at ht
      obtain ⟨goal, _, hf⟩ := ht
      split at hf
      · simp at hf
      · split at hf
        · simp at hf
          subst hf
          rfl
        · simp at hf

lemma check_quality_trend_names (storage : Option (List ContentMemory))
    (trig : InternalTrigger) (ht : trig ∈ check_quality_trend storage) :
    trig.name = "quality_degradation" := by
  rcases storage with _ | st
  · simp [check_quality_trend] at ht
  · simp only [check_quality_trend] at ht
    split at ht
    · simp at ht
    · split at ht
      · simp at ht
        subst ht
        rfl
      · simp at ht

lemma check_too_safe_short (storage : List ContentMemory)
    (h : storage.length < 5) : check_too_safe (some storage) = [] := by
  have hlen : (get_recent_content storage 10).length < 5 := by
    simp only [get_recent_content, List.length_take]
    omega
  simp [check_too_safe, hlen]

/-- C10: the over conservatism rule fires only with at least five recent
content records, always at urgency 0.7, and a history of fewer than five
content records makes check_state emit no too_conservative trigger at
all, whatever the rejection rate over those records. -/
theorem too_safe_requires_five_records (now : ℚ) (goals : Option GoalsConfig) :
    (∀ (storage : List ContentMemory) (trig : InternalTrigger),
        trig ∈ check_too_safe (some storage) →
          trig.urgency = 7/10 ∧ 5 ≤ (get_recent_content storage 10).length) ∧
    (∀ storage : List ContentMemory, storage.length < 5 →
        (check_state now (some storage) goals).filter
          (fun trig => trig.name == "too_conservative") = []) := by
  constructor
  · intro storage trig ht
    simp only [check_too_safe] at ht
    split at ht
    · simp at ht
    · split at ht
      · simp at ht
        subst ht
        exact ⟨rfl, by omega⟩
      · simp at ht
  · intro storage hlen
    rw [List.filter_eq_nil_iff]
    intro trig htrig
    simp only [check_state, List.mem_append] at htrig
    rcases htrig with ((((h | h) | h) | h) | h)
    · rcases check_publication_silence_names now (some storage) goals trig h with
        h1 | h1 <;> simp [h1]
    · have h1 := check_repetition_triggers_names (some storage) trig h
      simp [h1]
    · have h1 := check_goal_progress_names now goals trig h
      simp [h1]
    · rw [check_too_safe_short storage hlen] at h
      simp at h
    · have h1 := check_quality_trend_names (some storage) trig h
      simp [h1]

/-- Witness for C10 at time 0 with no goals configuration. -/
theorem too_safe_requires_five_records_witness :
    (∀ (storage : List ContentMemory) (trig : InternalTrigger),
        trig ∈ check_too_safe (some storage) →
          trig.urgency = 7/10 ∧ 5 ≤ (get_recent_content storage 10).length) ∧
    (∀ storage : List ContentMemory, storage.length < 5 →
        (check_state 0 (some storage) none).filter
          (fun trig => trig.name == "too_conservative") = []) :=
  too_safe_requires_five_records 0 none

lemma ite_singleton_eq_iff {α : Type} (c : Prop) [Decidable c] (x : α) :
    ((if c then [x] else []) = [x] ↔ c) ∧
      (¬c → (if c then [x] else []) = []) := by
  by_cases hc : c <;> simp [hc]

lemma filter_isSome_length (l : List ContentMemory) :
    (l.filter (fun c => c.quality_score.isSome)).length =
      (l.filterMap (fun c => c.quality_score)).length := by
  induction l with
  | nil => rfl
  | cons c rest ih =>
      cases hq : c.quality_score <;>
        simp [List.filter_cons, List.filterMap_cons, hq, ih]

lemma filter_isSome_take_filterMap (l : List ContentMemory) (k : ℕ) :
    ((l.filter (fun c => c.quality_score.isSome)).take k).filterMap
        (fun c => c.quality_score) =
      (l.filterMap (fun c => c.quality_score)).take k := by
  induction l generalizing k with
  | nil => simp
  | cons c rest ih =>
      cases hq : c.quality_score with
      | none => simp [List.filter_cons, List.filterMap_cons, hq, ih]
      | some q =>
          cases k with
          | zero => simp [List.filter_cons, hq]
          | succ k =>
              simp [List.filter_cons, List.filterMap_cons, hq,
                List.take_succ_cons, ih]

/-- C2 counterexample: eight scored records, newest first, with scores
0.5, 0.5, 0.5, 0.8, 0.8, 0, 0, 0. The code fires the quality trigger
because it compares the recent average 0.5 against the average 0.8 of
only the next two scores, while the claim's condition against the
average 0.32 of the next five scores is false, so the claim predicts no
trigger on this input although at least five scored records exist. -/
theorem quality_trend_claim_counterexample :
    check_quality_trend (some qualityTrendCex) =
      [⟨"quality_degradation", "quality_dropping", 3/5⟩] ∧
    5 ≤ (qualityTrendCex.filterMap (fun c => c.quality_score)).length ∧
    quality_trend_spec_trigger qualityTrendCex = false := by
  refine ⟨?_, by norm_num [qualityTrendCex, qtRec, List.filterMap_cons], ?_⟩
  · norm_num [check_quality_trend, get_recent_content, qualityTrendCex, qtRec,
      List.filterMap_cons]
  · norm_num [quality_trend_spec_trigger, qualityTrendCex, qtRec,
      List.filterMap_cons]

/-- C2 amended: over the quality scores qs of the 10 most recent content
records, in recency order, the rule emits the single quality trigger of
urgency 0.6 exactly when there are at least 5 scores and the average of
the most recent 3 is below the average of the next 2 minus 0.1; with
fewer than 5 scores it emits nothing, and it is a total function, so it
never raises. -/
theorem quality_trend_amended (storage : List ContentMemory) :
    (((get_recent_content storage 10).filterMap
        (fun c => c.quality_score)).length < 5 →
      check_quality_trend (some storage) = []) ∧
    (∀ qs : List ℚ,
      qs = (get_recent_content storage 10).filterMap (fun c => c.quality_score) →
      5 ≤ qs.length →
      ((check_quality_trend (some storage) =
          [⟨"quality_degradation", "quality_dropping", 3/5⟩]) ↔
        (qs.take 3).sum / 3 < ((qs.drop 3).take 2).sum / 2 - 1/10) ∧
      (¬((qs.take 3).sum / 3 < ((qs.drop 3).take 2).sum / 2 - 1/10) →
        check_quality_trend (some storage) = [])) := by
  constructor
  · intro hlen
    rw [← filter_isSome_length] at hlen
    simp [check_quality_trend, hlen]
  · rintro qs rfl h5
    have hlen : ¬(((get_recent_content storage 10).filter
        (fun c => c.quality_score.isSome)).length < 5) := by
      rw [filter_isSome_length]
      omega
    have hscores : (((get_recent_content storage 10).filter
          (fun c => c.quality_score.isSome)).take 5).filterMap
        (fun c => c.quality_score) =
          ((get_recent_content storage 10).filterMap
            (fun c => c.quality_score)).take 5 :=
      filter_isSome_take_filterMap (get_recent_content storage 10) 5
    have hlen3 : ((((get_recent_content storage 10).filterMap
        (fun c => c.quality_score)).take 5).take 3).length = 3 := by
      rw [List.length_take, List.length_take]
      omega
    have hlen2 : ((((get_recent_content storage 10).filterMap
        (fun c => c.quality_score)).take 5).drop 3).length = 2 := by
      rw [List.length_drop, List.length_take]
      omega
    simp only [check_quality_trend, hscores, if_neg hlen, hlen3, hlen2]
    rw [List.drop_take]
    have htt : (((get_recent_content storage 10).filterMap
        (fun c => c.quality_score)).take 5).take 3 =
          ((get_recent_content storage 10).filterMap
            (fun c => c.quality_score)).take 3 := by
      simp [List.take_take]
    rw [htt]
    push_cast
    exact ite_singleton_eq_iff _ _

/-- Witness for C2 at five scored records whose recent average 0 is
clearly below the older average 1. -/
theorem quality_trend_amended_witness :
    check_quality_trend (some qualityTrendFires) =
      [⟨"quality_degradation", "quality_dropping", 3/5⟩] :=
  (((quality_trend_amended qualityTrendFires).2
      [0, 0, 0, 1, 1] rfl (by norm_num)).1).mpr (by norm_num)

lemma maxByTimestamp_eq_none (l : List ContentMemory) :
    maxByTimestamp l = none ↔ l = [] := by
  cases l <;> simp [maxByTimestamp]

/-- C5 counterexample: eleven content records, newest first, where only
the oldest was ever published. The rule reads just the ten most recent
records, sees no publication among them, and emits the urgency 0.5
trigger although a publication exists, so the trigger is not emitted
exactly when nothing has ever been published. -/
theorem publication_silence_claim_counterexample :
    check_publication_silence 36000 (some pubSilenceCex)
        (some ⟨"moderate", []⟩) =
      [⟨"no_publications", "never_published", 1/2⟩] ∧
    ∃ c ∈ pubSilenceCex, c.published = true := by
  constructor
  · norm_num [check_publication_silence, get_recent_content, pubSilenceCex,
      unpubRec, pubRec, maxByTimestamp]
  · exact ⟨pubRec 3600, by simp [pubSilenceCex, unpubRec, pubRec], rfl⟩

/-- C5 amended: the urgency 0.5 no publications trigger is emitted
exactly when none of the 10 most recent content records is published;
when one of them is published, the silence trigger carrying the urgency
formula is emitted whenever the hours elapsed since the most recent
publication among them exceed 1.5 times the expected interval, which is
6 hours for the frequent category, 24 for moderate and 72 for rare. -/
theorem publication_silence_amended (now : ℚ) (storage : List ContentMemory)
    (g : GoalsConfig) :
    (((get_recent_content storage 10).filter (fun c => c.published) = []) ↔
      check_publication_silence now (some storage) (some g) =
        [⟨"no_publications", "never_published", 1/2⟩]) ∧
    (∀ last, maxByTimestamp
          ((get_recent_content storage 10).filter (fun c => c.published)) =
        some last →
      expectedIntervalHours g.posting_frequency * (3/2) <
          (now - last.timestamp) / 3600 →
      check_publication_silence now (some storage) (some g) =
        [⟨"publication_silence", "too_long_since_last",
          min (9/10) (1/2 + ((now - last.timestamp) / 3600 /
            expectedIntervalHours g.posting_frequency - 3/2) * (1/5))⟩]) ∧
    expectedIntervalHours "frequent" = 6 ∧
    expectedIntervalHours "moderate" = 24 ∧
    expectedIntervalHours "rare" = 72 := by
  refine ⟨⟨?_, ?_⟩, ?_, by decide, by decide, by decide⟩
  · intro h
    simp only [check_publication_silence, h]
    rfl
  · intro h
    by_contra hne
    obtain ⟨last, hlast⟩ : ∃ last, maxByTimestamp
        ((get_recent_content storage 10).filter (fun c => c.published)) =
          some last := by
      cases hf : (get_recent_content storage 10).filter (fun c => c.published) with
      | nil => exact absurd hf hne
      | cons a as => exact ⟨_, rfl⟩
    simp only [check_publication_silence, hlast] at h
    split at h
    · simp at h
    · simp at h
  · intro last hlast hcond
    simp only [check_publication_silence, hlast]
    rw [if_pos hcond]

/-- Witness for C5: one publication at time 0, clock at 37 hours,
moderate category with expected interval 24 hours, firing the formula
trigger. -/
theorem publication_silence_amended_witness :
    check_publication_silence 133200 (some pubSilenceWitnessStorage)
        (some ⟨"moderate", []⟩) =
      [⟨"publication_silence", "too_long_since_last",
        min (9/10) (1/2 + ((133200 - 0) / 3600 /
          expectedIntervalHours "moderate" - 3/2) * (1/5))⟩] :=
  (publication_silence_amended 133200 pubSilenceWitnessStorage
      ⟨"moderate", []⟩).2.1 (pubRec 0) rfl
    (by simp [expectedIntervalHours, pubRec]; norm_num)

lemma filterMap_replicate_none {α β : Type} (n : ℕ) (a : α) (f : α → Option β)
    (h : f a = none) : (List.replicate n a).filterMap f = [] := by
  induction n with
  | zero => rfl
  | succ n ih => simp [List.replicate_succ, List.filterMap_cons, h, ih]

lemma filterMap_replicate_some {α β : Type} (n : ℕ) (a : α) (f : α → Option β)
    (b : β) (h : f a = some b) :
    (List.replicate n a).filterMap f = List.replicate n b := by
  induction n with
  | zero => rfl
  | succ n ih =>
      simp [List.replicate_succ, List.filterMap_cons, h, ih]

lemma search_similar_unfold {E : Type} (sim : E → E → ℚ)
    (embedder : String → Option E) (storage : List (MemoryEntry E))
    (text : String) (entry_type : Option String) (th : ℚ) (k : ℕ) (qe : E)
    (hq : embedder text = some qe) :
    search_similar sim embedder storage text entry_type th k =
      (find_similar sim qe ((search_entries storage entry_type 1000).filterMap
          (fun e => e.embedding.map (fun emb => (e.id, emb)))) th k).filterMap
        (fun r => ((search_entries storage entry_type 1000).find?
            (fun e => e.id == r.1)).map (fun e => (e, r.2))) := by
  simp only [search_similar, hq]
  by_cases hcwe : ((search_entries storage entry_type 1000).filterMap
      (fun e => e.embedding.map (fun emb => (e.id, emb)))).isEmpty
  · rw [if_pos hcwe, List.isEmpty_iff.mp hcwe]
    simp [find_similar]
  · rw [if_neg hcwe]

lemma find?_id_of_nodup {E : Type} (cands : List (MemoryEntry E))
    (e : MemoryEntry E) (hnd : (cands.map (fun x => x.id)).Nodup)
    (he : e ∈ cands) :
    cands.find? (fun x => x.id == e.id) = some e := by
  induction cands with
  | nil => simp at he
  | cons a rest ih =>
      rw [List.map_cons, List.nodup_cons] at hnd
      rcases List.mem_cons.mp he with rfl | hrest
      · exact List.find?_cons_of_pos _ (by simp)
      · have hbeq : (a.id == e.id) = false := by
          simp only [beq_eq_false_iff_ne, ne_eq]
          intro hid
          exact hnd.1 (hid ▸ List.mem_map_of_mem (fun x => x.id) hrest)
        simp only [List.find?_cons, hbeq]
        exact ih hnd.2 hrest

lemma mem_cwe_iff {E : Type} (cands : List (MemoryEntry E)) (p : String × E) :
    p ∈ cands.filterMap (fun e => e.embedding.map (fun emb => (e.id, emb))) ↔
      ∃ e ∈ cands, e.embedding = some p.2 ∧ e.id = p.1 := by
  simp only [List.mem_filterMap, Option.map_eq_some']
  constructor
  · rintro ⟨e, he, emb, hemb, heq⟩
    cases p
    cases heq
    exact ⟨e, he, hemb, rfl⟩
  · rintro ⟨e, he, hemb, hid⟩
    exact ⟨e, he, p.2, hemb, by cases p; simp_all⟩

lemma mem_sims {E : Type} (sim : E → E → ℚ) (qe : E) (th : ℚ)
    (cwe : List (String × E)) (x : String × ℚ)
    (hx : x ∈ cwe.filterMap
      (fun c => if th ≤ sim qe c.2 then some (c.1, sim qe c.2) else none)) :
    th ≤ x.2 ∧ ∃ p ∈ cwe, x = (p.1, sim qe p.2) := by
  simp only [List.mem_filterMap] at hx
  obtain ⟨p, hp, hf⟩ := hx
  split at hf
  · cases Option.some.inj hf
    exact ⟨by assumption, p, hp, rfl⟩
  · simp at hf

lemma mem_sims_intro {E : Type} (sim : E → E → ℚ) (qe : E) (th : ℚ)
    (cwe : List (String × E)) (p : String × E) (hp : p ∈ cwe)
    (hth : th ≤ sim qe p.2) :
    (p.1, sim qe p.2) ∈ cwe.filterMap
      (fun c => if th ≤ sim qe c.2 then some (c.1, sim qe c.2) else none) :=
  List.mem_filterMap.mpr ⟨p, hp, by rw [if_pos hth]⟩

lemma find_similar_top1 {E : Type} (sim : E → E → ℚ) (qe : E) (th : ℚ)
    (cwe : List (String × E)) :
    (find_similar sim qe cwe th 1 = [] ∧ ∀ p ∈ cwe, sim qe p.2 < th) ∨
    (∃ x : String × ℚ, find_similar sim qe cwe th 1 = [x] ∧ th ≤ x.2 ∧
      (∃ p ∈ cwe, x = (p.1, sim qe p.2)) ∧
      ∀ p ∈ cwe, th ≤ sim qe p.2 → sim qe p.2 ≤ x.2) := by
  have htrans : ∀ (a b c : String × ℚ),
      (fun a b : String × ℚ => decide (b.2 ≤ a.2)) a b →
      (fun a b : String × ℚ => decide (b.2 ≤ a.2)) b c →
      (fun a b : String × ℚ => decide (b.2 ≤ a.2)) a c := by
    intro a b c hab hbc
    simp only [decide_eq_true_eq] at *
    exact le_trans hbc hab
  have htotal : ∀ (a b : String × ℚ),
      ((fun a b : String × ℚ => decide (b.2 ≤ a.2)) a b ||
       (fun a b : String × ℚ => decide (b.2 ≤ a.2)) b a) = true := by
    intro a b
    simp only [Bool.or_eq_true, decide_eq_true_eq]
    exact le_total b.2 a.2
  simp only [find_similar]
  rcases hsort : (cwe.filterMap
        (fun c => if th ≤ sim qe c.2 then some (c.1, sim qe c.2) else none)).mergeSort
      (fun a b => decide (b.2 ≤ a.2)) with _ | ⟨x, t⟩
  · left
    have hperm := List.mergeSort_perm (cwe.filterMap
        (fun c => if th ≤ sim qe c.2 then some (c.1, sim qe c.2) else none))
      (fun a b => decide (b.2 ≤ a.2))
    rw [hsort] at hperm
    have hsims := hperm.symm.eq_nil
    constructor
    · rw [hsort]
      rfl
    · intro p hp
      by_contra hge
      push_neg at hge
      have hmem := mem_sims_intro sim qe th cwe p hp hge
      rw [hsims] at hmem
      simp at hmem
  · right
    have hx : x ∈ cwe.filterMap
        (fun c => if th ≤ sim qe c.2 then some (c.1, sim qe c.2) else none) := by
      have : x ∈ (cwe.filterMap
          (fun c => if th ≤ sim qe c.2 then some (c.1, sim qe c.2) else none)).mergeSort
            (fun a b => decide (b.2 ≤ a.2)) := by
        rw [hsort]
        exact List.mem_cons_self x t
      exact List.mem_mergeSort.mp this
    obtain ⟨hthx, p0, hp0, hxp0⟩ := mem_sims sim qe th cwe x hx
    refine ⟨x, by rw [hsort]; rfl, hthx, ⟨p0, hp0, hxp0⟩, ?_⟩
    intro p hp hth2
    have hmem := mem_sims_intro sim qe th cwe p hp hth2
    have hmem2 : (p.1, sim qe p.2) ∈ x :: t := by
      rw [← hsort]
      exact List.mem_mergeSort.mpr hmem
    rcases List.mem_cons.mp hmem2 with heq | hmemt
    · exact le_of_eq (congrArg Prod.snd heq)
    · have hpair := List.sorted_mergeSort htrans htotal (cwe.filterMap
        (fun c => if th ≤ sim qe c.2 then some (c.1, sim qe c.2) else none))
      rw [hsort] at hpair
      have := (List.pairwise_cons.mp hpair).1 _ hmemt
      simpa using this

lemma search_similar_top1 {E : Type} (sim : E → E → ℚ)
    (embedder : String → Option E) (storage : List (MemoryEntry E))
    (text : String) (th : ℚ) (qe : E)
    (hq : embedder text = some qe)
    (hids : ((storage.take 1000).map (fun x => x.id)).Nodup) :
    (search_similar sim embedder storage text none th 1 = [] ∧
      ∀ e ∈ storage.take 1000, ∀ emb, e.embedding = some emb →
        sim qe emb < th) ∨
    (∃ e s, search_similar sim embedder storage text none th 1 = [(e, s)] ∧
      e ∈ storage.take 1000 ∧ th ≤ s ∧
      (∃ emb, e.embedding = some emb ∧ sim qe emb = s) ∧
      ∀ e2 ∈ storage.take 1000, ∀ emb2, e2.embedding = some emb2 →
        sim qe emb2 ≤ s) := by
  have hunfold := search_similar_unfold sim embedder storage text none th 1 qe hq
  simp only [search_entries] at hunfold
  rcases find_similar_top1 sim qe th ((storage.take 1000).filterMap
      (fun e => e.embedding.map (fun emb => (e.id, emb)))) with
    ⟨hnil, hall⟩ | ⟨x, hone, hthx, ⟨p, hp, hxp⟩, hmax⟩
  · left
    constructor
    · rw [hunfold, hnil]
      rfl
    · intro e he emb hemb
      exact hall (e.id, emb) ((mem_cwe_iff _ _).mpr ⟨e, he, hemb, rfl⟩)
  · right
    obtain ⟨eh, heh, hembh, hidh⟩ := (mem_cwe_iff _ _).mp hp
    refine ⟨eh, x.2, ?_, heh, hthx, ⟨p.2, hembh, (congrArg Prod.snd hxp).symm⟩, ?_⟩
    · rw [hunfold, hone]
      have hx1 : x.1 = eh.id := by
        rw [hxp]
        exact hidh.symm
      have hfind : (storage.take 1000).find? (fun e => e.id == x.1) = some eh := by
        rw [hx1]
        exact find?_id_of_nodup _ eh hids heh
      simp [List.filterMap_cons, hfind]
    · intro e2 he2 emb2 hemb2
      by_cases hth2 : th ≤ sim qe emb2
      · exact hmax (e2.id, emb2) ((mem_cwe_iff _ _).mpr ⟨e2, he2, hemb2, rfl⟩) hth2
      · push_neg at hth2
        exact le_trans (le_of_lt hth2) hthx

/-- C9 counterexample: 1001 stored entries, newest first; the single
matching entry at similarity 0.9 is the oldest and falls outside the
candidate limit of 1000 used by search_entries, so check_repetition
answers (false, none) at threshold 0.85 although the best stored match
reaches the threshold. -/
theorem check_repetition_claim_counterexample :
    check_repetition repSim repEmbedder repCexStorage "X" (17/20) =
      (false, none) ∧
    ∃ entry ∈ repCexStorage, ∃ emb, entry.embedding = some emb ∧
      repEmbedder "X" = some 1 ∧ (17:ℚ)/20 ≤ repSim 1 emb := by
  constructor
  · have hcand : search_entries repCexStorage (none : Option String) 1000 =
        List.replicate 1000 (⟨"recent", "content", some 0⟩ : MemoryEntry ℕ) := by
      simp only [search_entries, repCexStorage]
      exact List.take_left' (List.length_replicate 1000 _)
    have hcwe : (List.replicate 1000
          (⟨"recent", "content", some 0⟩ : MemoryEntry ℕ)).filterMap
        (fun e => e.embedding.map (fun emb => (e.id, emb))) =
          List.replicate 1000 ("recent", (0 : ℕ)) :=
      filterMap_replicate_some _ _ _ _ rfl
    have hsims : (List.replicate 1000 ("recent", (0 : ℕ))).filterMap
        (fun c => if (17:ℚ)/20 ≤ repSim 1 c.2 then some (c.1, repSim 1 c.2)
          else none) = [] :=
      filterMap_replicate_none _ _ _ (by norm_num [repSim])
    have hsearch : search_similar repSim repEmbedder repCexStorage "X" none
        (17/20) 1 = [] := by
      rw [search_similar_unfold repSim repEmbedder repCexStorage "X" none
        (17/20) 1 1 rfl, hcand]
      simp only [find_similar, hcwe, hsims]
      simp only [List.mergeSort_nil, List.take_nil, List.filterMap_nil]
    simp only [check_repetition, hsearch]
  · exact ⟨⟨"old", "content", some 1⟩,
      List.mem_append_right _ (List.mem_singleton_self _), 1, rfl, rfl,
      by norm_num [repSim]⟩

/-- C9 amended: given that the query embeds and ids are unique,
check_repetition answers true exactly when some of the up to 1000 most
recent stored entries carrying an embedding scores at least the
threshold; it answers (false, none) otherwise; and the returned record is
a stored candidate scoring at least the threshold and at least as high
as every other candidate. -/
theorem check_repetition_amended {E : Type} (sim : E → E → ℚ)
    (embedder : String → Option E) (storage : List (MemoryEntry E))
    (text : String) (th : ℚ) (qe : E)
    (hq : embedder text = some qe)
    (hids : ((storage.take 1000).map (fun x => x.id)).Nodup) :
    ((check_repetition sim embedder storage text th).1 = true ↔
      ∃ e ∈ storage.take 1000, ∃ emb, e.embedding = some emb ∧
        th ≤ sim qe emb) ∧
    ((check_repetition sim embedder storage text th).1 = false →
      check_repetition sim embedder storage text th = (false, none)) ∧
    (∀ e, (check_repetition sim embedder storage text th).2 = some e →
      e ∈ storage.take 1000 ∧ ∃ emb, e.embedding = some emb ∧
        th ≤ sim qe emb ∧
        ∀ e2 ∈ storage.take 1000, ∀ emb2, e2.embedding = some emb2 →
          sim qe emb2 ≤ sim qe emb) ∧
    ((check_repetition sim embedder storage text th).1 = true →
      ∃ e, (check_repetition sim embedder storage text th).2 = some e) := by
  rcases search_similar_top1 sim embedder storage text th qe hq hids with
    ⟨hnil, hall⟩ | ⟨e0, s0, hone, he0, hth0, ⟨emb0, hembeq, hsim0⟩, hmax0⟩
  · have hres : check_repetition sim embedder storage text th = (false, none) := by
      simp [check_repetition, hnil]
    rw [hres]
    refine ⟨?_, fun _ => rfl, ?_, ?_⟩
    · constructor
      · intro h
        simp at h
      · rintro ⟨e, he, emb, hemb, hth⟩
        exact absurd hth (not_le.mpr (hall e he emb hemb))
    · intro e h
      simp at h
    · intro h
      simp at h
  · have hres : check_repetition sim embedder storage text th =
        (true, some e0) := by
      simp [check_repetition, hone, hth0]
    rw [hres]
    refine ⟨?_, ?_, ?_, fun _ => ⟨e0, rfl⟩⟩
    · exact iff_of_true rfl ⟨e0, he0, emb0, hembeq, by rw [hsim0]; exact hth0⟩
    · intro h
      simp at h
    · intro e h
      obtain rfl : e0 = e := Option.some.inj h
      refine ⟨he0, emb0, hembeq, by rw [hsim0]; exact hth0, ?_⟩
      intro e2 he2 emb2 hemb2
      rw [hsim0]
      exact hmax0 e2 he2 emb2 hemb2

/-- Witness for C9: one stored entry at similarity 0.9 is matched at
threshold 0.85 and missed at threshold 0.95. -/
theorem check_repetition_amended_witness :
    (check_repetition repSim repEmbedder repWitnessStorage "X" (17/20)).1 =
      true ∧
    check_repetition repSim repEmbedder repWitnessStorage "X" (19/20) =
      (false, none) := by
  constructor
  · exact (check_repetition_amended repSim repEmbedder repWitnessStorage "X"
      (17/20) 1 rfl (by simp [repWitnessStorage])).1.mpr
      ⟨⟨"r1", "content", some 1⟩, by simp [repWitnessStorage], 1, rfl,
        by norm_num [repSim]⟩
  · have hth := check_repetition_amended repSim repEmbedder repWitnessStorage
      "X" (19/20) 1 rfl (by simp [repWitnessStorage])
    have hfalse : (check_repetition repSim repEmbedder repWitnessStorage "X"
        (19/20)).1 = false := by
      rw [Bool.eq_false_iff]
      intro htrue
      obtain ⟨e, he, emb, hemb, hle⟩ := hth.1.mp htrue
      rw [List.take_of_length_le (by simp [repWitnessStorage])] at he
      simp only [repWitnessStorage, List.mem_singleton] at he
      subst he
      simp only [Option.some.injEq] at hemb
      subst hemb
      norm_num [repSim] at hle
    exact hth.2.1 hfalse

end Autopost
